import Mathlib

/-!
Shallow embedding of the employment-dashboard core (data_fusion.py,
ai_insights.py) and proofs of its specified properties.

Tables are lists of records; a pandas DataFrame column named `layoffs` or
`hires` is the `count` field of `EventRow` (the two source tables have the
same shape apart from that column name).  Machine floats appear only in two
places of the source and are modelled exactly where their special values
matter: a `NaN`-able statistic is an `Option ℚ` (`none` = NaN) and a
`pct_change` result is a `PFloat` (finite, ±infinity, or NaN).
-/

/-- One record of a source table (a row of `layoffs_df` or `hiring_df`):
company, year, month, the event count (the `layoffs` column on the reduction
side, the `hires` column on the hiring side), industry and location.  The
`date` and `quarter` columns of the raw data are never read by the fused
pipeline and are omitted. -/
structure EventRow where
  company : String
  year : Int
  month : Int
  count : Int
  industry : String
  location : String
deriving DecidableEq, Repr

/-- A (company, year, month) grouping key. -/
abbrev CYM := String × Int × Int

/-- The grouping key of a source row. -/
def EventRow.key (r : EventRow) : CYM := (r.company, r.year, r.month)

/-- Boolean lexicographic comparison of character lists by character code:
the strict order Python and pandas use on strings.  It is implemented by
structural recursion so that concrete instances evaluate by kernel reduction
(the iterator-based core comparison does not); it agrees with the usual
lexicographic strict order on strings. -/
def strLtB : List Char → List Char → Bool
  | [], [] => false
  | [], _ :: _ => true
  | _ :: _, [] => false
  | a :: as, b :: bs => if a < b then true else if b < a then false else strLtB as bs

/-- Strict lexicographic order on strings. -/
def strLt (a b : String) : Prop := strLtB a.data b.data = true

/-- Lexicographic less-or-equal on strings (not strictly greater). -/
def strLe (a b : String) : Prop := strLtB b.data a.data = false

instance : DecidableRel strLt := fun a b => by
  unfold strLt; infer_instance

instance : DecidableRel strLe := fun a b => by
  unfold strLe; infer_instance

/-- Lexicographic order on (company, year, month) keys: the order in which
pandas lists the groups of `groupby(['company','year','month'])` and the
keys of an outer merge. -/
def cymLe (a b : CYM) : Prop :=
  strLt a.1 b.1 ∨ (a.1 = b.1 ∧ (a.2.1 < b.2.1 ∨ (a.2.1 = b.2.1 ∧ a.2.2 ≤ b.2.2)))

instance : DecidableRel cymLe := fun a b => by
  unfold cymLe; infer_instance

/-- The distinct (company, year, month) keys of a source table, in the sorted
order in which `groupby(['company','year','month'])` (with its default
`sort=True`) emits the groups. -/
def monthlyKeys (rows : List EventRow) : List CYM :=
  List.insertionSort cymLe (rows.map EventRow.key).dedup

/-- One row of the monthly pre-aggregation for key `k`:
`agg({count: 'sum', industry: 'first', location: 'first'})` over the group of
rows with that key (the group is nonempty whenever `k` is a key of `rows`;
the `""` defaults are never reached then). -/
def monthlyAggRow (rows : List EventRow) (k : CYM) : EventRow :=
  let grp := rows.filter fun r => decide (r.key = k)
  { company := k.1, year := k.2.1, month := k.2.2,
    count := (grp.map EventRow.count).sum,
    industry := (grp.head?.map EventRow.industry).getD "",
    location := (grp.head?.map EventRow.location).getD "" }

/-- Lines 8-19 of data_fusion.py: a source table pre-aggregated by
(company, year, month) — summed counts, first-seen industry and location,
one row per distinct key in sorted key order. -/
def aggMonthly (rows : List EventRow) : List EventRow :=
  (monthlyKeys rows).map (monthlyAggRow rows)

/-- A row of the fused table.  Industry and location are `Option`s because the
merge produces a pandas column that is NaN exactly when both sides miss the
key (`none` = NaN); `date` is the derived first-of-month day as a
(year, month, day) triple. -/
structure FusedRow where
  company : String
  year : Int
  month : Int
  layoffs : Int
  hires : Int
  industry : Option String
  location : Option String
  net_change : Int
  employment_ratio : ℚ
  date : Int × Int × Int
deriving DecidableEq, Repr

/-- The grouping key of a fused row. -/
def FusedRow.key (r : FusedRow) : CYM := (r.company, r.year, r.month)

/-- One output row of the outer merge for key `k`, where `l?` and `h?` are the
matching rows of the two monthly aggregates (`none` = key absent on that
side).  Missing counts are filled with 0 (lines 31-32), industry/location
coalesce the layoffs side first (lines 35-36), net change and the damped
ratio are computed (lines 39-40), and the first-of-month date is derived
(line 43). -/
def mkFusedRow (k : CYM) (l? h? : Option EventRow) : FusedRow :=
  let layoffs := (l?.map EventRow.count).getD 0
  let hires := (h?.map EventRow.count).getD 0
  { company := k.1, year := k.2.1, month := k.2.2,
    layoffs := layoffs, hires := hires,
    industry := (l?.map EventRow.industry) <|> (h?.map EventRow.industry),
    location := (l?.map EventRow.location) <|> (h?.map EventRow.location),
    net_change := hires - layoffs,
    employment_ratio := (hires : ℚ) / ((layoffs : ℚ) + 1),
    date := (k.2.1, k.2.2, 1) }

/-- Lines 4-48 of data_fusion.py: pre-aggregate both sources monthly, outer
merge on (company, year, month) (pandas sorts the keys of an outer merge
lexicographically; each side has unique keys, so each output key joins at most
one row per side), fill missing counts with zero, resolve industry/location,
and derive the metric columns. -/
def fuse_employment_data (layoffs_df hiring_df : List EventRow) : List FusedRow :=
  let layoffs_monthly := aggMonthly layoffs_df
  let hiring_monthly := aggMonthly hiring_df
  let keys := List.insertionSort cymLe
    ((layoffs_monthly.map EventRow.key) ++ (hiring_monthly.map EventRow.key)).dedup
  keys.map fun k =>
    mkFusedRow k (layoffs_monthly.find? fun l => decide (l.key = k))
      (hiring_monthly.find? fun h => decide (h.key = k))

/-- Helper for Python thousands formatting: inserts a comma after every three
characters of a reversed digit list. -/
def groupDigits : List Char → List Char
  | a :: b :: c :: d :: rest => a :: b :: c :: ',' :: groupDigits (d :: rest)
  | l => l

/-- Python `f"{n:,}"`: decimal digits with comma thousands separators and a
leading minus sign for negatives. -/
def formatComma (n : Int) : String :=
  let ds := Nat.toDigits 10 n.natAbs
  (if n < 0 then "-" else "") ++ String.mk (groupDigits ds.reverse).reverse

/-- The value of `Series.idxmax` paired with `Series.max`: the first index
attaining the maximum value (pandas keeps the first occurrence on ties);
`none` on an empty series, where pandas raises ValueError. -/
def idxmaxPair {κ : Type} : List (κ × Int) → Option (κ × Int)
  | [] => none
  | p :: rest => some (rest.foldl (fun best q => if best.2 < q.2 then q else best) p)

/-- Indexing a series by a key label, `series[k]`: `none` models the KeyError
raised when the label is absent. -/
def seriesGet {κ : Type} [DecidableEq κ] (s : List (κ × Int)) (k : κ) : Option Int :=
  (s.find? fun p => decide (p.1 = k)).map Prod.snd

/-- `df.groupby(key)[val].sum()`: one (key, summed value) pair per distinct
key, keys in the ascending order pandas default `sort=True` produces. -/
def groupSum {κ ρ : Type} [DecidableEq κ] (le : κ → κ → Prop) [DecidableRel le]
    (key : ρ → κ) (val : ρ → Int) (rows : List ρ) : List (κ × Int) :=
  (List.insertionSort le (rows.map key).dedup).map fun k =>
    (k, ((rows.filter fun r => decide (key r = k)).map val).sum)

/-- `groupby` over a nullable string column (the fused table's industry):
pandas drops groups whose key is NaN. -/
def groupSumOpt {ρ : Type} (key : ρ → Option String) (val : ρ → Int) (rows : List ρ) :
    List (String × Int) :=
  (List.insertionSort strLe (rows.filterMap key).dedup).map fun i =>
    (i, ((rows.filter fun r => decide (key r = some i)).map val).sum)

/-- Comparison that puts larger second components first. -/
def descVal {κ : Type} (a b : κ × Int) : Prop := b.2 ≤ a.2

instance {κ : Type} : DecidableRel (@descVal κ) := fun a b =>
  inferInstanceAs (Decidable (b.2 ≤ a.2))

/-- `Series.sort_values(ascending=False)`: descending sort of a series by
value, keeping tied entries in their original order (pandas descending sorts
reverse the input, argsort, and reverse again, so ties keep input order). -/
def sortDesc {κ : Type} (s : List (κ × Int)) : List (κ × Int) :=
  List.insertionSort descVal s

/-- The month_names dictionary of lines 39-40; lookup outside 1-12 is a
KeyError, modelled as `none`. -/
def month_names : Int → Option String
  | 1 => some "January"
  | 2 => some "February"
  | 3 => some "March"
  | 4 => some "April"
  | 5 => some "May"
  | 6 => some "June"
  | 7 => some "July"
  | 8 => some "August"
  | 9 => some "September"
  | 10 => some "October"
  | 11 => some "November"
  | 12 => some "December"
  | _ => none

/-- The positive-framed recovery message of line 48. -/
def recoveryPosMsg (y net : Int) : String :=
  "🔄 **Recovery Signal**: " ++ toString y ++ " shows positive net employment growth (+" ++
    formatComma net ++ " jobs)."

/-- The negative-framed recovery message of line 50. -/
def recoveryNegMsg (y net : Int) : String :=
  "⚠️ **Continued Challenges**: " ++ toString y ++ " still shows net job losses (" ++
    formatComma net ++ " jobs)."

/-- The layoffs-more-volatile message of line 56. -/
def marketVolatilityMsg : String :=
  "📊 **Market Volatility**: Layoff patterns show higher volatility than hiring, indicating uncertain market conditions."

/-- The hiring-more-volatile message of line 58 (the else branch). -/
def marketStabilityMsg : String :=
  "📊 **Market Stability**: Hiring patterns are more volatile than layoffs, suggesting dynamic growth opportunities."

/-- Sample variance (ddof = 1) of the values of a yearly series, over ℚ;
`none` models the NaN pandas `std()` returns on fewer than two observations.
The standard deviation is the square root of this; the source only ever
compares two stds, and square root is strictly monotone on nonnegatives, so
std comparisons are modelled as variance comparisons. -/
def sampleVar (s : List Int) : Option ℚ :=
  if 2 ≤ s.length then
    let n : ℚ := s.length
    let mean : ℚ := (s.map fun x => (x : ℚ)).sum / n
    some (((s.map fun x => ((x : ℚ) - mean) ^ 2).sum) / (n - 1))
  else none

/-- Float `a > b` where either side may be NaN (`none`): every comparison
with NaN is false. -/
def optGt (a b : Option ℚ) : Bool :=
  match a, b with
  | some x, some y => decide (y < x)
  | _, _ => false

/-- Lines 52-58 of ai_insights.py: the market-volatility rule.  One of the two
messages is always produced; in the degenerate case both stds are NaN, the
comparison is false and the else-branch (stability) message is chosen. -/
def volatilityInsight (yearly_layoffs yearly_hires : List (Int × Int)) : String :=
  if optGt (sampleVar (yearly_layoffs.map Prod.snd)) (sampleVar (yearly_hires.map Prod.snd)) then
    marketVolatilityMsg
  else marketStabilityMsg

/-- Lines 43-50 of ai_insights.py: the recovery-indicator rule.  `max` over
the hiring years fails on an empty series (`none`); inside the guard both
series lookups are present, so they never fail there. -/
def recoveryInsight (yearly_layoffs yearly_hires : List (Int × Int)) : Option (List String) := do
  let recent_year ← (yearly_hires.map Prod.fst).max?
  if decide (recent_year ∈ yearly_hires.map Prod.fst) &&
      decide (recent_year ∈ yearly_layoffs.map Prod.fst) then
    let hv ← seriesGet yearly_hires recent_year
    let lv ← seriesGet yearly_layoffs recent_year
    let recent_net := hv - lv
    if 0 < recent_net then pure [recoveryPosMsg recent_year recent_net]
    else pure [recoveryNegMsg recent_year recent_net]
  else pure []

/-- Lines 6-60 of ai_insights.py.  The `Option` models raised exceptions:
`none` whenever `idxmax`, `index[0]` or `max` hits an empty aggregate, or the
month-name lookup misses (pandas ValueError / IndexError / KeyError). -/
def generate_ai_insights (layoffs_df hiring_df : List EventRow)
    (fused_df : List FusedRow) : Option (List String) := do
  let yearly_layoffs := groupSum (· ≤ ·) EventRow.year EventRow.count layoffs_df
  let yearly_hires := groupSum (· ≤ ·) EventRow.year EventRow.count hiring_df
  let peakL ← idxmaxPair yearly_layoffs
  let i1 := "🔍 **Peak Layoffs**: " ++ toString peakL.1 ++ " saw the highest layoffs with " ++
    formatComma peakL.2 ++ " jobs lost."
  let peakH ← idxmaxPair yearly_hires
  let i2 := "📈 **Peak Hiring**: " ++ toString peakH.1 ++ " had the strongest hiring with " ++
    formatComma peakH.2 ++ " new positions."
  let industry_layoffs := sortDesc (groupSum strLe EventRow.industry EventRow.count layoffs_df)
  let topInd ← industry_layoffs.head?
  let i3 := "🏭 **Most Affected Industry**: " ++ topInd.1 ++
    " experienced the highest layoffs (" ++ formatComma topInd.2 ++ " jobs)."
  let company_net_change := sortDesc (groupSum strLe FusedRow.company FusedRow.net_change fused_df)
  let topCo ← company_net_change.head?
  let i4 := "🏢 **Top Net Hirer**: " ++ topCo.1 ++ " has the highest net employment growth (+" ++
    formatComma topCo.2 ++ " positions)."
  let monthly_layoffs := groupSum (· ≤ ·) EventRow.month EventRow.count layoffs_df
  let peakM ← idxmaxPair monthly_layoffs
  let mname ← month_names peakM.1
  let i5 := "📅 **Seasonal Pattern**: " ++ mname ++ " typically sees the highest layoff activity."
  let recovery ← recoveryInsight yearly_layoffs yearly_hires
  let i7 := volatilityInsight yearly_layoffs yearly_hires
  pure ([i1, i2, i3, i4, i5] ++ recovery ++ [i7])

/-- Value of a float `pct_change` entry computed from integer series:
finite, a signed infinity (division of a nonzero number by zero), or NaN
(zero by zero). -/
inductive PFloat where
  | fin (q : ℚ)
  | pinf
  | ninf
  | nan
deriving DecidableEq, Repr

/-- Float semantics of `(cur - prev) / prev` on integer inputs, matching the
pandas `pct_change` of two consecutive totals. -/
def pctChange (prev cur : Int) : PFloat :=
  if prev = 0 then
    if 0 < cur - prev then PFloat.pinf
    else if cur - prev < 0 then PFloat.ninf
    else PFloat.nan
  else PFloat.fin (((cur : ℚ) - (prev : ℚ)) / (prev : ℚ))

/-- Float `a < q` against a finite threshold: false for NaN and +∞, true
for −∞. -/
def pfLt (a : PFloat) (q : ℚ) : Bool :=
  match a with
  | PFloat.fin x => decide (x < q)
  | PFloat.ninf => true
  | _ => false

/-- Float `a > q` against a finite threshold: false for NaN and −∞, true
for +∞. -/
def pfGt (a : PFloat) (q : ℚ) : Bool :=
  match a with
  | PFloat.fin x => decide (q < x)
  | PFloat.pinf => true
  | _ => false

/-- Lines 68-72 of ai_insights.py: the fused table grouped by year (ascending)
with summed layoffs, hires and net change. -/
def fusedYearly (fused_df : List FusedRow) : List (Int × Int × Int × Int) :=
  (List.insertionSort (· ≤ ·) (fused_df.map FusedRow.year).dedup).map fun y =>
    let grp := fused_df.filter fun r => decide (r.year = y)
    (y, (grp.map FusedRow.layoffs).sum, (grp.map FusedRow.hires).sum,
      (grp.map FusedRow.net_change).sum)

/-- Lines 74-92 of ai_insights.py: the year-over-year growth sub-rules of
predict_trends, using the last two yearly rows; each sub-rule emits nothing
inside the ±10 percent band. -/
def growthMessages (fused_df : List FusedRow) : List String :=
  let yearly_data := fusedYearly fused_df
  if 2 ≤ yearly_data.length then
    match yearly_data.reverse with
    | cur :: prev :: _ =>
      let latest_layoff_growth := pctChange prev.2.1 cur.2.1
      let latest_hiring_growth := pctChange prev.2.2.1 cur.2.2.1
      (if pfLt latest_layoff_growth (-(1 : ℚ) / 10) then
        ["🔮 **Layoff Trend**: Decreasing layoff activity suggests market stabilization."]
      else if pfGt latest_layoff_growth ((1 : ℚ) / 10) then
        ["🔮 **Layoff Trend**: Increasing layoffs may indicate economic headwinds ahead."]
      else []) ++
      (if pfGt latest_hiring_growth ((1 : ℚ) / 10) then
        ["🔮 **Hiring Trend**: Strong hiring growth indicates expanding job market opportunities."]
      else if pfLt latest_hiring_growth (-(1 : ℚ) / 10) then
        ["🔮 **Hiring Trend**: Declining hiring activity suggests cautious market sentiment."]
      else [])
    | _ => []
  else []

/-- Line 95 of ai_insights.py: the rows the momentum rule actually keeps —
those with year at least (max year − 1).  On an empty table the year maximum
is NaN and the comparison keeps nothing. -/
def codeRecentWindow (fused_df : List FusedRow) : List FusedRow :=
  match (fused_df.map FusedRow.year).max? with
  | none => []
  | some my => fused_df.filter fun r => decide (my - 1 ≤ r.year)

/-- The window described by the claim wording, for comparison: rows whose year
is one of the two most recent distinct years present in the fused data. -/
def specRecentWindow (fused_df : List FusedRow) : List FusedRow :=
  let recentYears :=
    ((List.insertionSort (· ≤ ·) (fused_df.map FusedRow.year).dedup).reverse).take 2
  fused_df.filter fun r => decide (r.year ∈ recentYears)

/-- The industry-momentum message of line 100. -/
def momentumMsg (industry : String) : String :=
  "🚀 **Industry Momentum**: " ++ industry ++ " shows strongest recent employment growth."

/-- Lines 94-100 of ai_insights.py: the industry-momentum sub-rule of
predict_trends. -/
def momentumMessages (fused_df : List FusedRow) : List String :=
  let industry_momentum :=
    sortDesc (groupSumOpt FusedRow.industry FusedRow.net_change (codeRecentWindow fused_df))
  match industry_momentum.head? with
  | some top => [momentumMsg top.1]
  | none => []

/-- Lines 62-102 of ai_insights.py. -/
def predict_trends (fused_df : List FusedRow) : List String :=
  growthMessages fused_df ++ momentumMessages fused_df

/-- Lines 104-114 of ai_insights.py: four fixed advisory strings, independent
of both arguments. -/
def generate_recommendations (insights predictions : List String) : List String :=
  ["💡 **For Job Seekers**: Focus on industries showing positive net employment growth and consider companies with strong hiring patterns.",
   "💡 **For Employers**: Monitor seasonal hiring patterns and consider counter-cyclical recruitment strategies during low-activity periods.",
   "💡 **For Investors**: Track employment trends as leading indicators of company performance and market health.",
   "💡 **For Policymakers**: Consider targeted support for industries experiencing significant layoffs while fostering growth in expanding sectors."]

/-- Ascending order on (year, month) series labels. -/
def ymLe (a b : Int × Int) : Prop := a.1 < b.1 ∨ (a.1 = b.1 ∧ a.2 ≤ b.2)

instance : DecidableRel ymLe := fun a b => by
  unfold ymLe; infer_instance

/-- The bundle returned by get_summary_statistics (lines 93-102 of
data_fusion.py). -/
structure SummaryStats where
  total_layoffs : Int
  total_hires : Int
  net_employment_change : Int
  top_layoff_companies : List (String × Int)
  top_hiring_companies : List (String × Int)
  monthly_layoffs : List ((Int × Int) × Int)
  monthly_hires : List ((Int × Int) × Int)
  industry_impact : List (String × Int)
deriving DecidableEq, Repr

/-- Lines 75-102 of data_fusion.py.  The fused_df parameter is accepted (and
is part of the call signature) but no field of the result reads it. -/
def get_summary_statistics (layoffs_df hiring_df : List EventRow)
    (fused_df : List FusedRow) : SummaryStats :=
  { total_layoffs := (layoffs_df.map EventRow.count).sum,
    total_hires := (hiring_df.map EventRow.count).sum,
    net_employment_change :=
      (hiring_df.map EventRow.count).sum - (layoffs_df.map EventRow.count).sum,
    top_layoff_companies :=
      (sortDesc (groupSum strLe EventRow.company EventRow.count layoffs_df)).take 10,
    top_hiring_companies :=
      (sortDesc (groupSum strLe EventRow.company EventRow.count hiring_df)).take 10,
    monthly_layoffs := groupSum ymLe (fun r => (r.year, r.month)) EventRow.count layoffs_df,
    monthly_hires := groupSum ymLe (fun r => (r.year, r.month)) EventRow.count hiring_df,
    industry_impact := sortDesc (groupSum strLe EventRow.industry EventRow.count layoffs_df) }

/-- Python truthiness of an optional list parameter: `None` and the empty
list are both falsy, so either means "leave the dimension unconstrained". -/
def truthy {α : Type} : Option (List α) → Bool
  | some (_ :: _) => true
  | _ => false

/-- Lines 104-120 of data_fusion.py: conjunctive inclusion filtering over the
four dimensions; a falsy parameter skips its dimension. -/
def filter_data (df : List EventRow) (companies : Option (List String))
    (years months : Option (List Int)) (industries : Option (List String)) : List EventRow :=
  let f1 := if truthy companies then
    df.filter fun r => decide (r.company ∈ companies.getD []) else df
  let f2 := if truthy years then
    f1.filter fun r => decide (r.year ∈ years.getD []) else f1
  let f3 := if truthy months then
    f2.filter fun r => decide (r.month ∈ months.getD []) else f2
  if truthy industries then
    f3.filter fun r => decide (r.industry ∈ industries.getD []) else f3

/-- A one-row reduction table used to instantiate the fused-table theorems. -/
def wLayoffs : List EventRow :=
  [{ company := "A", year := 2022, month := 1, count := 100, industry := "X", location := "SF" }]

/-- A hiring table with one row matching `wLayoffs` and one extra key. -/
def wHires : List EventRow :=
  [{ company := "A", year := 2022, month := 1, count := 40, industry := "X", location := "SF" },
   { company := "B", year := 2021, month := 3, count := 10, industry := "Y", location := "NY" }]

/-- A reduction table whose only year (2020) is older than the most recent
hiring year. -/
def c3Layoffs : List EventRow :=
  [{ company := "A", year := 2020, month := 5, count := 100, industry := "X", location := "SF" }]

/-- A hiring table with years 2020 and 2022; 2022 is absent from
`c3Layoffs`. -/
def c3Hires : List EventRow :=
  [{ company := "A", year := 2020, month := 2, count := 30, industry := "X", location := "SF" },
   { company := "B", year := 2022, month := 7, count := 50, industry := "Y", location := "NY" }]

/-- A reduction table with a single distinct year. -/
def c8Layoffs : List EventRow :=
  [{ company := "A", year := 2022, month := 1, count := 120, industry := "X", location := "SF" }]

/-- A hiring table with the same single distinct year. -/
def c8Hires : List EventRow :=
  [{ company := "A", year := 2022, month := 3, count := 80, industry := "X", location := "SF" }]

/-- Eleven single-row companies (distinct totals 11 down to 1), so that the
top-10 selection genuinely drops a group. -/
def c5Rows : List EventRow :=
  [{ company := "A", year := 2022, month := 1, count := 11, industry := "X", location := "SF" },
   { company := "B", year := 2022, month := 1, count := 10, industry := "X", location := "SF" },
   { company := "C", year := 2022, month := 1, count := 9, industry := "X", location := "SF" },
   { company := "D", year := 2022, month := 1, count := 8, industry := "X", location := "SF" },
   { company := "E", year := 2022, month := 1, count := 7, industry := "X", location := "SF" },
   { company := "F", year := 2022, month := 1, count := 6, industry := "X", location := "SF" },
   { company := "G", year := 2022, month := 1, count := 5, industry := "X", location := "SF" },
   { company := "H", year := 2022, month := 1, count := 4, industry := "X", location := "SF" },
   { company := "I", year := 2022, month := 1, count := 3, industry := "X", location := "SF" },
   { company := "J", year := 2022, month := 1, count := 2, industry := "X", location := "SF" },
   { company := "K", year := 2022, month := 1, count := 1, industry := "X", location := "SF" }]

/-- A hiring table whose distinct years are 2019 and 2022: the two most
recent distinct years present are far apart. -/
def c7Hires : List EventRow :=
  [{ company := "A", year := 2019, month := 4, count := 100, industry := "X", location := "SF" },
   { company := "B", year := 2022, month := 6, count := 10, industry := "Y", location := "NY" }]

/-- The fused table for `c7Hires` (no reductions). -/
def c7Fused : List FusedRow := fuse_employment_data [] c7Hires

/-!
Proofs.  The propositional order instances for the sort relations come
first, then the structural lemmas about the embedding, then the specified
properties themselves.
-/

theorem strLtB_nil_right (a : List Char) : strLtB a [] = false := by
  cases a <;> rfl

theorem strLtB_asymm {a b : List Char} (h : strLtB a b = true) : strLtB b a = false := by
  induction a generalizing b with
  | nil =>
    cases b with
    | nil => simp [strLtB] at h
    | cons d s => exact strLtB_nil_right _
  | cons c t ih =>
    cases b with
    | nil => simp [strLtB] at h
    | cons d s =>
      simp only [strLtB] at h ⊢
      by_cases hcd : c < d
      · rw [if_neg (asymm hcd), if_pos hcd]
      · by_cases hdc : d < c
        · simp [hcd, hdc] at h
        · simp only [hcd, hdc, if_false] at h ⊢
          simpa using ih h

theorem strLtB_eq_of_not {a b : List Char} (hab : strLtB a b = false)
    (hba : strLtB b a = false) : a = b := by
  induction a generalizing b with
  | nil =>
    cases b with
    | nil => rfl
    | cons d s => simp [strLtB] at hab
  | cons c t ih =>
    cases b with
    | nil => simp [strLtB] at hba
    | cons d s =>
      by_cases hcd : c < d
      · simp [strLtB, hcd] at hab
      · by_cases hdc : d < c
        · simp [strLtB, hdc] at hba
        · have hcde : c = d := le_antisymm (not_lt.1 hdc) (not_lt.1 hcd)
          subst hcde
          simp only [strLtB, lt_irrefl, if_false, if_neg hcd] at hab hba
          rw [ih hab hba]

theorem strLtB_trans {a b c : List Char} (h1 : strLtB a b = true)
    (h2 : strLtB b c = true) : strLtB a c = true := by
  induction a generalizing b c with
  | nil =>
    cases c with
    | nil => rw [strLtB_nil_right] at h2; cases h2
    | cons z zs => rfl
  | cons x xs ih =>
    cases b with
    | nil => simp [strLtB] at h1
    | cons y ys =>
      cases c with
      | nil => rw [strLtB_nil_right] at h2; cases h2
      | cons z zs =>
        simp only [strLtB] at h1 h2 ⊢
        by_cases hxy : x < y
        · by_cases hyz : y < z
          · simp [lt_trans hxy hyz]
          · by_cases hzy : z < y
            · simp [hyz, hzy] at h2
            · have : y = z := le_antisymm (not_lt.1 hzy) (not_lt.1 hyz)
              subst this
              simp [hxy]
        · by_cases hyx : y < x
          · simp [hxy, hyx] at h1
          · have : x = y := le_antisymm (not_lt.1 hyx) (not_lt.1 hxy)
            subst this
            simp only [lt_irrefl, if_false] at h1
            by_cases hyz : x < z
            · simp [hyz]
            · by_cases hzy : z < x
              · simp [hyz, hzy] at h2
              · simp only [hyz, hzy, if_false] at h1 h2 ⊢
                exact ih h1 h2

theorem string_eq_of_data {a b : String} (h : a.data = b.data) : a = b := by
  cases a
  cases b
  exact congrArg String.mk h

theorem cymLe_trans {a b c : CYM} (hab : cymLe a b) (hbc : cymLe b c) : cymLe a c := by
  rcases hab with h1 | ⟨e1, h1⟩
  · rcases hbc with h2 | ⟨e2, h2⟩
    · exact Or.inl (strLtB_trans h1 h2)
    · exact Or.inl (e2 ▸ h1)
  · rcases hbc with h2 | ⟨e2, h2⟩
    · exact Or.inl (e1 ▸ h2)
    · refine Or.inr ⟨e1.trans e2, ?_⟩
      rcases h1 with h1 | ⟨f1, h1⟩ <;> rcases h2 with h2 | ⟨f2, h2⟩
      · exact Or.inl (lt_trans h1 h2)
      · exact Or.inl (f2 ▸ h1)
      · exact Or.inl (f1 ▸ h2)
      · exact Or.inr ⟨f1.trans f2, le_trans h1 h2⟩

theorem cymLe_total (a b : CYM) : cymLe a b ∨ cymLe b a := by
  by_cases hab : strLt a.1 b.1
  · exact Or.inl (Or.inl hab)
  · by_cases hba : strLt b.1 a.1
    · exact Or.inr (Or.inl hba)
    · have he : a.1 = b.1 :=
        string_eq_of_data
          (strLtB_eq_of_not (Bool.not_eq_true _ ▸ hab) (Bool.not_eq_true _ ▸ hba))
      rcases lt_trichotomy a.2.1 b.2.1 with h2 | h2 | h2
      · exact Or.inl (Or.inr ⟨he, Or.inl h2⟩)
      · rcases le_total a.2.2 b.2.2 with h3 | h3
        · exact Or.inl (Or.inr ⟨he, Or.inr ⟨h2, h3⟩⟩)
        · exact Or.inr (Or.inr ⟨he.symm, Or.inr ⟨h2.symm, h3⟩⟩)
      · exact Or.inr (Or.inr ⟨he.symm, Or.inl h2⟩)

instance : IsTrans CYM cymLe := ⟨fun _ _ _ => cymLe_trans⟩

instance : IsTotal CYM cymLe := ⟨cymLe_total⟩

instance {κ : Type} : IsTotal (κ × Int) descVal := ⟨fun a b => le_total b.2 a.2⟩

instance {κ : Type} : IsTrans (κ × Int) descVal := ⟨fun _ _ _ hab hbc => le_trans hbc hab⟩

theorem mkFusedRow_key (k : CYM) (l? h? : Option EventRow) : (mkFusedRow k l? h?).key = k := by
  obtain ⟨c, y, m⟩ := k
  rfl

theorem monthlyAggRow_key (rows : List EventRow) (k : CYM) : (monthlyAggRow rows k).key = k := by
  obtain ⟨c, y, m⟩ := k
  rfl

theorem map_key_aggMonthly (rows : List EventRow) :
    (aggMonthly rows).map EventRow.key = monthlyKeys rows := by
  unfold aggMonthly
  rw [List.map_map]
  exact (List.map_congr_left fun k _ => monthlyAggRow_key rows k).trans (List.map_id _)

theorem nodup_monthlyKeys (rows : List EventRow) : (monthlyKeys rows).Nodup :=
  (List.perm_insertionSort cymLe _).nodup_iff.2 (List.nodup_dedup _)

theorem mem_monthlyKeys {rows : List EventRow} {k : CYM} :
    k ∈ monthlyKeys rows ↔ k ∈ rows.map EventRow.key := by
  unfold monthlyKeys
  rw [List.mem_insertionSort, List.mem_dedup]

theorem find?_eq_of_mem {α : Type} [DecidableEq α] {l : List α} {k : α} (h : k ∈ l) :
    l.find? (fun x => decide (x = k)) = some k := by
  induction l with
  | nil => cases h
  | cons a t ih =>
    by_cases ha : a = k
    · subst ha
      exact List.find?_cons_of_pos _ (by simp)
    · rw [List.find?_cons_of_neg _ (by simp [ha])]
      refine ih ?_
      rcases List.mem_cons.1 h with h | h
      · exact absurd h.symm ha
      · exact h

theorem find?_aggMonthly {rows : List EventRow} {k : CYM} (h : k ∈ monthlyKeys rows) :
    (aggMonthly rows).find? (fun r => decide (r.key = k)) = some (monthlyAggRow rows k) := by
  unfold aggMonthly
  rw [List.find?_map]
  have hc : ((fun r => decide (EventRow.key r = k)) ∘ monthlyAggRow rows) =
      fun x => decide (x = k) := by
    funext x
    simp [Function.comp, monthlyAggRow_key]
  rw [hc, find?_eq_of_mem h]
  rfl

theorem find?_aggMonthly_eq_none {rows : List EventRow} {k : CYM} (h : k ∉ monthlyKeys rows) :
    (aggMonthly rows).find? (fun r => decide (r.key = k)) = none := by
  rw [List.find?_eq_none]
  intro x hx
  simp only [decide_eq_true_eq]
  intro hk
  refine h ?_
  have hm := List.mem_map_of_mem EventRow.key hx
  rw [map_key_aggMonthly] at hm
  exact hk ▸ hm

theorem aggMonthly_mem_eq {rows : List EventRow} {l : EventRow} (h : l ∈ aggMonthly rows) :
    l = monthlyAggRow rows l.key ∧ l.key ∈ monthlyKeys rows := by
  unfold aggMonthly at h
  rw [List.mem_map] at h
  obtain ⟨k, hk, rfl⟩ := h
  rw [monthlyAggRow_key]
  exact ⟨rfl, hk⟩

theorem mem_fuse_iff {layoffs_df hiring_df : List EventRow} {row : FusedRow} :
    row ∈ fuse_employment_data layoffs_df hiring_df ↔
      ∃ k, (k ∈ monthlyKeys layoffs_df ∨ k ∈ monthlyKeys hiring_df) ∧
        row = mkFusedRow k
          ((aggMonthly layoffs_df).find? fun l => decide (l.key = k))
          ((aggMonthly hiring_df).find? fun h => decide (h.key = k)) := by
  simp only [fuse_employment_data, List.mem_map, List.mem_insertionSort, List.mem_dedup,
    List.mem_append, map_key_aggMonthly]
  constructor
  · rintro ⟨k, hk, rfl⟩
    exact ⟨k, hk, rfl⟩
  · rintro ⟨k, hk, rfl⟩
    exact ⟨k, hk, rfl⟩

theorem sorted_monthlyKeys (rows : List EventRow) : List.Sorted cymLe (monthlyKeys rows) :=
  List.sorted_insertionSort cymLe _

theorem monthlyKeys_sort_self (rows : List EventRow) :
    List.insertionSort cymLe (monthlyKeys rows).dedup = monthlyKeys rows := by
  rw [List.dedup_eq_self.2 (nodup_monthlyKeys rows)]
  exact (sorted_monthlyKeys rows).insertionSort_eq

theorem fuse_nil_right (layoffs_df : List EventRow) :
    fuse_employment_data layoffs_df [] =
      (aggMonthly layoffs_df).map fun l => mkFusedRow l.key (some l) none := by
  simp only [fuse_employment_data]
  rw [show aggMonthly ([] : List EventRow) = [] from rfl]
  simp only [List.map_nil, List.append_nil, List.find?_nil]
  rw [map_key_aggMonthly, monthlyKeys_sort_self]
  conv_rhs => rw [aggMonthly, List.map_map]
  refine List.map_congr_left fun k hk => ?_
  rw [find?_aggMonthly hk]
  simp [Function.comp, monthlyAggRow_key]

theorem fuse_nil_left (hiring_df : List EventRow) :
    fuse_employment_data [] hiring_df =
      (aggMonthly hiring_df).map fun h => mkFusedRow h.key none (some h) := by
  simp only [fuse_employment_data]
  rw [show aggMonthly ([] : List EventRow) = [] from rfl]
  simp only [List.map_nil, List.nil_append, List.find?_nil]
  rw [map_key_aggMonthly, monthlyKeys_sort_self]
  conv_rhs => rw [aggMonthly, List.map_map]
  refine List.map_congr_left fun k hk => ?_
  rw [find?_aggMonthly hk]
  simp [Function.comp, monthlyAggRow_key]

theorem sortDesc_perm {κ : Type} (s : List (κ × Int)) : (sortDesc s).Perm s :=
  List.perm_insertionSort _ _

theorem sortDesc_sorted {κ : Type} (s : List (κ × Int)) :
    List.Sorted descVal (sortDesc s) :=
  List.sorted_insertionSort _ _

theorem sortDesc_stable {κ : Type} (s : List (κ × Int)) (v : Int) :
    (sortDesc s).filter (fun p => decide (p.2 = v)) =
      s.filter (fun p => decide (p.2 = v)) := by
  have hpair : (s.filter fun p => decide (p.2 = v)).Pairwise descVal := by
    refine List.pairwise_of_forall_mem_list fun a ha b hb => ?_
    have ha2 := (List.mem_filter.1 ha).2
    have hb2 := (List.mem_filter.1 hb).2
    simp only [decide_eq_true_eq] at ha2 hb2
    unfold descVal
    rw [ha2, hb2]
  have hsub : List.Sublist (s.filter fun p => decide (p.2 = v)) (sortDesc s) :=
    List.sublist_insertionSort hpair (List.filter_sublist s)
  have hc : ((s.filter fun p => decide (p.2 = v)).filter fun p => decide (p.2 = v)) =
      s.filter fun p => decide (p.2 = v) :=
    List.filter_eq_self.2 fun a ha => (List.mem_filter.1 ha).2
  have hsub2 := List.Sublist.filter (fun p => decide (p.2 = v)) hsub
  rw [hc] at hsub2
  have hperm : ((sortDesc s).filter fun p => decide (p.2 = v)).Perm
      (s.filter fun p => decide (p.2 = v)) := (sortDesc_perm s).filter _
  exact (hsub2.eq_of_length hperm.length_eq.symm).symm

theorem sortDesc_head_ge {κ : Type} {s : List (κ × Int)} {top : κ × Int}
    (h : (sortDesc s).head? = some top) : ∀ p ∈ s, p.2 ≤ top.2 := by
  intro p hp
  have hps : p ∈ sortDesc s := (sortDesc_perm s).mem_iff.2 hp
  cases hd : sortDesc s with
  | nil => rw [hd] at hps; cases hps
  | cons a t =>
    rw [hd] at h hps
    have hta : top = a := by
      simpa using h.symm
    subst hta
    have hsorted := sortDesc_sorted s
    rw [hd] at hsorted
    rcases List.mem_cons.1 hps with hpa | hpt
    · rw [hpa]
    · exact List.rel_of_sorted_cons hsorted p hpt

theorem sortDesc_eq_nil_iff {κ : Type} {s : List (κ × Int)} : sortDesc s = [] ↔ s = [] := by
  constructor
  · intro h
    have hlen := (sortDesc_perm s).length_eq
    rw [h] at hlen
    exact List.length_eq_zero.1 hlen.symm
  · intro h
    rw [h]
    rfl

theorem wFuse_ne_nil : fuse_employment_data wLayoffs wHires ≠ [] := by decide

/-- C1: the fused table has exactly one row per (company, year, month) key
(its key column is duplicate-free), and its key set is exactly the union of
the key sets of the two monthly pre-aggregations. -/
theorem fused_key_set_is_union (layoffs_df hiring_df : List EventRow) :
    ((fuse_employment_data layoffs_df hiring_df).map FusedRow.key).Nodup ∧
      ∀ k : CYM,
        k ∈ (fuse_employment_data layoffs_df hiring_df).map FusedRow.key ↔
          (k ∈ (aggMonthly layoffs_df).map EventRow.key ∨
            k ∈ (aggMonthly hiring_df).map EventRow.key) := by
  have hmap : (fuse_employment_data layoffs_df hiring_df).map FusedRow.key =
      List.insertionSort cymLe
        (((aggMonthly layoffs_df).map EventRow.key) ++
          ((aggMonthly hiring_df).map EventRow.key)).dedup := by
    simp only [fuse_employment_data, List.map_map]
    exact (List.map_congr_left fun k _ => mkFusedRow_key k _ _).trans (List.map_id _)
  rw [hmap]
  refine ⟨(List.perm_insertionSort _ _).nodup_iff.2 (List.nodup_dedup _), fun k => ?_⟩
  rw [List.mem_insertionSort, List.mem_dedup, List.mem_append]

/-- C2: every fused row satisfies net_change = hires − layoffs and
employment_ratio = hires / (layoffs + 1). -/
theorem fused_row_derived_metrics (layoffs_df hiring_df : List EventRow) :
    ∀ row ∈ fuse_employment_data layoffs_df hiring_df,
      row.net_change = row.hires - row.layoffs ∧
        row.employment_ratio = (row.hires : ℚ) / ((row.layoffs : ℚ) + 1) := by
  intro row hrow
  obtain ⟨k, -, rfl⟩ := mem_fuse_iff.1 hrow
  exact ⟨rfl, rfl⟩

/-- Witness for C2 at the head row of a concrete fused table. -/
theorem fused_row_derived_metrics_witness :
    ((fuse_employment_data wLayoffs wHires).head wFuse_ne_nil).net_change =
        ((fuse_employment_data wLayoffs wHires).head wFuse_ne_nil).hires -
          ((fuse_employment_data wLayoffs wHires).head wFuse_ne_nil).layoffs ∧
      ((fuse_employment_data wLayoffs wHires).head wFuse_ne_nil).employment_ratio =
        (((fuse_employment_data wLayoffs wHires).head wFuse_ne_nil).hires : ℚ) /
          ((((fuse_employment_data wLayoffs wHires).head wFuse_ne_nil).layoffs : ℚ) + 1) :=
  fused_row_derived_metrics wLayoffs wHires _ (List.head_mem wFuse_ne_nil)

/-- C6: in every fused row, industry and location are the reduction-side
pre-aggregated values when the key occurs on the reduction side, otherwise the
hiring-side values, and they are never both absent. -/
theorem fused_industry_resolution (layoffs_df hiring_df : List EventRow) :
    ∀ row ∈ fuse_employment_data layoffs_df hiring_df,
      (∀ l ∈ aggMonthly layoffs_df, l.key = row.key →
          row.industry = some l.industry ∧ row.location = some l.location) ∧
        (row.key ∉ (aggMonthly layoffs_df).map EventRow.key →
          ∀ hr ∈ aggMonthly hiring_df, hr.key = row.key →
            row.industry = some hr.industry ∧ row.location = some hr.location) ∧
        row.industry.isSome = true ∧ row.location.isSome = true := by
  intro row hrow
  obtain ⟨k, hk, rfl⟩ := mem_fuse_iff.1 hrow
  rw [mkFusedRow_key]
  refine ⟨?_, ?_, ?_⟩
  · intro l hl hkey
    obtain ⟨hleq, hlk⟩ := aggMonthly_mem_eq hl
    rw [hkey] at hleq hlk
    rw [find?_aggMonthly hlk]
    exact ⟨congrArg some (congrArg EventRow.industry hleq.symm),
      congrArg some (congrArg EventRow.location hleq.symm)⟩
  · intro hnot hr hhr hkey
    rw [map_key_aggMonthly] at hnot
    obtain ⟨hheq, hhk⟩ := aggMonthly_mem_eq hhr
    rw [hkey] at hheq hhk
    rw [find?_aggMonthly_eq_none hnot, find?_aggMonthly hhk]
    exact ⟨congrArg some (congrArg EventRow.industry hheq.symm),
      congrArg some (congrArg EventRow.location hheq.symm)⟩
  · rcases hk with hk | hk
    · rw [find?_aggMonthly hk]
      exact ⟨rfl, rfl⟩
    · by_cases hkl : k ∈ monthlyKeys layoffs_df
      · rw [find?_aggMonthly hkl]
        exact ⟨rfl, rfl⟩
      · rw [find?_aggMonthly_eq_none hkl, find?_aggMonthly hk]
        exact ⟨rfl, rfl⟩

/-- Witness for C6 at the head row of a concrete fused table. -/
theorem fused_industry_resolution_witness :
    (∀ l ∈ aggMonthly wLayoffs,
        l.key = ((fuse_employment_data wLayoffs wHires).head wFuse_ne_nil).key →
          ((fuse_employment_data wLayoffs wHires).head wFuse_ne_nil).industry = some l.industry ∧
            ((fuse_employment_data wLayoffs wHires).head wFuse_ne_nil).location =
              some l.location) ∧
      (((fuse_employment_data wLayoffs wHires).head wFuse_ne_nil).key ∉
          (aggMonthly wLayoffs).map EventRow.key →
        ∀ hr ∈ aggMonthly wHires,
          hr.key = ((fuse_employment_data wLayoffs wHires).head wFuse_ne_nil).key →
            ((fuse_employment_data wLayoffs wHires).head wFuse_ne_nil).industry =
                some hr.industry ∧
              ((fuse_employment_data wLayoffs wHires).head wFuse_ne_nil).location =
                some hr.location) ∧
      ((fuse_employment_data wLayoffs wHires).head wFuse_ne_nil).industry.isSome = true ∧
      ((fuse_employment_data wLayoffs wHires).head wFuse_ne_nil).location.isSome = true :=
  fused_industry_resolution wLayoffs wHires _ (List.head_mem wFuse_ne_nil)

/-- C9: filtering with every dimension absent or empty returns the input
table row-for-row unchanged (the embedding is purely functional and the
source filters a fresh copy, so the input table is never mutated). -/
theorem filter_data_unconstrained_id (df : List EventRow)
    (companies : Option (List String)) (years months : Option (List Int))
    (industries : Option (List String))
    (hc : truthy companies = false) (hy : truthy years = false)
    (hm : truthy months = false) (hi : truthy industries = false) :
    filter_data df companies years months industries = df := by
  simp [filter_data, hc, hy, hm, hi]

/-- Witness for C9: the all-None call and the all-empty-list call both leave
a concrete table unchanged. -/
theorem filter_data_unconstrained_id_witness :
    filter_data wHires none none none none = wHires ∧
      filter_data wHires (some []) (some []) (some []) (some []) = wHires :=
  ⟨filter_data_unconstrained_id wHires none none none none rfl rfl rfl rfl,
   filter_data_unconstrained_id wHires (some []) (some []) (some []) (some []) rfl rfl rfl rfl⟩

/-- C10: the summary bundle is computed from the two raw source tables only;
the fused-table argument never influences the result. -/
theorem get_summary_statistics_ignores_fused (layoffs_df hiring_df : List EventRow)
    (fused1 fused2 : List FusedRow) :
    get_summary_statistics layoffs_df hiring_df fused1 =
      get_summary_statistics layoffs_df hiring_df fused2 := rfl

/-- C4 counterexample: when one or both source tables are empty,
generate_ai_insights does not produce a result — the embedded `none` is the
ValueError pandas `idxmax` raises on an empty yearly aggregate — although the
claim requires a valid (possibly degenerate) sequence of strings. -/
theorem generate_ai_insights_empty_input_fails :
    generate_ai_insights [] wHires (fuse_employment_data [] wHires) = none ∧
      generate_ai_insights wLayoffs [] (fuse_employment_data wLayoffs []) = none ∧
      generate_ai_insights [] [] [] = none := by
  refine ⟨rfl, ?_, rfl⟩
  simp only [generate_ai_insights]
  cases idxmaxPair (groupSum (· ≤ ·) EventRow.year EventRow.count wLayoffs) <;> rfl

/-- C4 amended: fusion handles empty inputs exactly as the claim states —
the fused table is the non-empty side's monthly pre-aggregation with the
missing side's count zero-filled, and the both-empty case gives the empty
table — but generate_ai_insights fails (pandas raises) whenever either source
table is empty, instead of returning a string sequence. -/
theorem empty_input_handling (layoffs_df hiring_df : List EventRow)
    (fused_df : List FusedRow) (hemp : layoffs_df = [] ∨ hiring_df = []) :
    fuse_employment_data layoffs_df [] =
        ((aggMonthly layoffs_df).map fun l => mkFusedRow l.key (some l) none) ∧
      fuse_employment_data [] hiring_df =
        ((aggMonthly hiring_df).map fun h => mkFusedRow h.key none (some h)) ∧
      fuse_employment_data [] [] = ([] : List FusedRow) ∧
      generate_ai_insights layoffs_df hiring_df fused_df = none := by
  refine ⟨fuse_nil_right _, fuse_nil_left _, rfl, ?_⟩
  rcases hemp with he | he <;> subst he
  · rfl
  · simp only [generate_ai_insights]
    cases idxmaxPair (groupSum (· ≤ ·) EventRow.year EventRow.count layoffs_df) <;> rfl

/-- Witness for the amended C4 at concrete tables. -/
theorem empty_input_handling_witness :
    fuse_employment_data wLayoffs [] =
        ((aggMonthly wLayoffs).map fun l => mkFusedRow l.key (some l) none) ∧
      fuse_employment_data [] ([] : List EventRow) =
        ((aggMonthly ([] : List EventRow)).map fun h => mkFusedRow h.key none (some h)) ∧
      fuse_employment_data [] [] = ([] : List FusedRow) ∧
      generate_ai_insights wLayoffs [] [] = none :=
  empty_input_handling wLayoffs [] [] (Or.inr rfl)

/-- C3 counterexample: the most recent hiring year (2022) is absent from the
layoffs yearly aggregate; treating the missing side as zero gives net
50 − 0 ≥ 0, so the claim requires a positive-framed message, but the
recovery rule emits nothing (it is guarded to skip that case). -/
theorem recovery_missing_year_skipped :
    ((groupSum (· ≤ ·) EventRow.year EventRow.count c3Hires).map Prod.fst).max? =
        some 2022 ∧
      (2022 : Int) ∉ (groupSum (· ≤ ·) EventRow.year EventRow.count c3Layoffs).map Prod.fst ∧
      seriesGet (groupSum (· ≤ ·) EventRow.year EventRow.count c3Hires) 2022 = some 50 ∧
      (0 : Int) ≤ 50 - 0 ∧
      recoveryInsight (groupSum (· ≤ ·) EventRow.year EventRow.count c3Layoffs)
        (groupSum (· ≤ ·) EventRow.year EventRow.count c3Hires) = some [] := by
  decide

/-- C3 amended: for a non-degenerate hiring table the recovery rule emits a
message only when the most recent hiring year is also present in the layoffs
yearly aggregate; in that case the net is hires − layoffs for that year and
the positive-framed message appears iff the net is strictly positive (the
negative-framed message covers net = 0); when the year is missing on the
layoffs side the rule is skipped without error (it does not substitute
zero). -/
theorem recoveryInsight_cases (yearly_layoffs yearly_hires : List (Int × Int))
    (y hv lv : Int) (hy : (yearly_hires.map Prod.fst).max? = some y) :
    (y ∉ yearly_layoffs.map Prod.fst →
        recoveryInsight yearly_layoffs yearly_hires = some []) ∧
      (y ∈ yearly_layoffs.map Prod.fst →
        seriesGet yearly_hires y = some hv →
        seriesGet yearly_layoffs y = some lv →
          recoveryInsight yearly_layoffs yearly_hires =
            some (if 0 < hv - lv then [recoveryPosMsg y (hv - lv)]
              else [recoveryNegMsg y (hv - lv)])) := by
  have hymem : y ∈ yearly_hires.map Prod.fst :=
    List.max?_mem (fun a b => max_choice a b) hy
  constructor
  · intro hnot
    simp [recoveryInsight, hy, hnot]
  · intro hmem hh hl
    simp [recoveryInsight, hy, hymem, hmem, hh, hl]
    split_ifs <;> rfl

/-- Witness for the amended C3: the skip case at `c3Layoffs`/`c3Hires`, and
the present case at `wLayoffs`/`wHires` where net = 40 − 100 ≤ 0 selects the
negative-framed message. -/
theorem recoveryInsight_cases_witness :
    recoveryInsight (groupSum (· ≤ ·) EventRow.year EventRow.count c3Layoffs)
        (groupSum (· ≤ ·) EventRow.year EventRow.count c3Hires) = some [] ∧
      recoveryInsight (groupSum (· ≤ ·) EventRow.year EventRow.count wLayoffs)
        (groupSum (· ≤ ·) EventRow.year EventRow.count wHires) =
        some [recoveryNegMsg 2022 (-60)] := by
  constructor
  · exact (recoveryInsight_cases _ _ 2022 0 0 (by decide)).1 (by decide)
  · have h := (recoveryInsight_cases
      (groupSum (· ≤ ·) EventRow.year EventRow.count wLayoffs)
      (groupSum (· ≤ ·) EventRow.year EventRow.count wHires)
      2022 40 100 (by decide)).2 (by decide) (by decide) (by decide)
    rw [h, if_neg (by decide)]
    norm_num

/-- C8 counterexample: with fewer than two distinct years on either side the
volatility rule is not skipped — both stds are NaN, the NaN comparison is
false, and the else-branch Market Stability (hiring-more-volatile) message is
emitted in the returned insight list. -/
theorem volatility_single_year_not_skipped :
    (groupSum (· ≤ ·) EventRow.year EventRow.count c8Layoffs).length < 2 ∧
      (groupSum (· ≤ ·) EventRow.year EventRow.count c8Hires).length < 2 ∧
      (generate_ai_insights c8Layoffs c8Hires
          (fuse_employment_data c8Layoffs c8Hires)).map
          (fun l => decide (marketStabilityMsg ∈ l)) = some true := by
  decide

/-- C8 amended: with fewer than two distinct years on each side the rule is
evaluated without error, but instead of being skipped it emits the
hiring-more-volatile (Market Stability) message: both stds are NaN and the
NaN > NaN comparison selects the else branch. -/
theorem volatility_degenerate (yearly_layoffs yearly_hires : List (Int × Int))
    (hl : yearly_layoffs.length < 2) (hh : yearly_hires.length < 2) :
    volatilityInsight yearly_layoffs yearly_hires = marketStabilityMsg := by
  have hvar : sampleVar (yearly_layoffs.map Prod.snd) = none := by
    unfold sampleVar
    rw [if_neg]
    simpa using Nat.not_le.2 hl
  unfold volatilityInsight
  rw [hvar]
  rfl

/-- Witness for the amended C8 at the single-year concrete series. -/
theorem volatility_degenerate_witness :
    volatilityInsight (groupSum (· ≤ ·) EventRow.year EventRow.count c8Layoffs)
      (groupSum (· ≤ ·) EventRow.year EventRow.count c8Hires) = marketStabilityMsg :=
  volatility_degenerate _ _ (by decide) (by decide)

theorem topTen_spec (s : List (String × Int)) :
    ((sortDesc s).take 10).length ≤ 10 ∧
      List.Sorted descVal ((sortDesc s).take 10) ∧
      (∀ p ∈ (sortDesc s).take 10, ∀ q ∈ (sortDesc s).drop 10, q.2 ≤ p.2) ∧
      ∀ v : Int, (sortDesc s).filter (fun p => decide (p.2 = v)) =
        s.filter (fun p => decide (p.2 = v)) := by
  refine ⟨?_, ?_, ?_, fun v => sortDesc_stable s v⟩
  · rw [List.length_take]
    exact min_le_left _ _
  · exact List.Pairwise.sublist (List.take_sublist 10 _) (sortDesc_sorted s)
  · intro p hp q hq
    exact (sortDesc_sorted s).rel_of_mem_take_of_mem_drop hp hq

/-- C5: each top-10 company list of the summary bundle has at most ten rows,
is in descending order of the summed metric, every kept row's total is at
least every dropped row's total, and the underlying descending sort is
stable: for every value, the entries carrying that value appear in the same
order as in the pre-aggregated (groupby-ordered) series. -/
theorem top_companies_spec (layoffs_df hiring_df : List EventRow)
    (fused_df : List FusedRow) :
    ((get_summary_statistics layoffs_df hiring_df fused_df).top_layoff_companies.length ≤ 10 ∧
      List.Sorted descVal
        (get_summary_statistics layoffs_df hiring_df fused_df).top_layoff_companies ∧
      (∀ p ∈ (get_summary_statistics layoffs_df hiring_df fused_df).top_layoff_companies,
        ∀ q ∈ (sortDesc (groupSum strLe EventRow.company EventRow.count layoffs_df)).drop 10,
          q.2 ≤ p.2) ∧
      (∀ v : Int,
        (sortDesc (groupSum strLe EventRow.company EventRow.count layoffs_df)).filter
            (fun p => decide (p.2 = v)) =
          (groupSum strLe EventRow.company EventRow.count layoffs_df).filter
            (fun p => decide (p.2 = v)))) ∧
    ((get_summary_statistics layoffs_df hiring_df fused_df).top_hiring_companies.length ≤ 10 ∧
      List.Sorted descVal
        (get_summary_statistics layoffs_df hiring_df fused_df).top_hiring_companies ∧
      (∀ p ∈ (get_summary_statistics layoffs_df hiring_df fused_df).top_hiring_companies,
        ∀ q ∈ (sortDesc (groupSum strLe EventRow.company EventRow.count hiring_df)).drop 10,
          q.2 ≤ p.2) ∧
      (∀ v : Int,
        (sortDesc (groupSum strLe EventRow.company EventRow.count hiring_df)).filter
            (fun p => decide (p.2 = v)) =
          (groupSum strLe EventRow.company EventRow.count hiring_df).filter
            (fun p => decide (p.2 = v)))) :=
  ⟨topTen_spec _, topTen_spec _⟩

/-- Witness for C5: at the 11-company table the kept list has at most ten
rows, and a kept row's total dominates the dropped row's total. -/
theorem top_companies_spec_witness :
    (get_summary_statistics c5Rows wHires []).top_layoff_companies.length ≤ 10 ∧
      (("K", (1 : Int)).2 ≤ (("A", (11 : Int)).2)) :=
  ⟨(top_companies_spec c5Rows wHires []).1.1,
   (top_companies_spec c5Rows wHires []).1.2.2.1 ("A", 11) (by decide) ("K", 1) (by decide)⟩

/-- C7 counterexample: with years 2019 and 2022 present, the two most recent
distinct years are 2019 and 2022 (the spec window has both rows), but the
code keeps only rows with year ≥ 2021 (one row): the momentum rule names Y
although X has the highest summed net change over the spec's window. -/
theorem momentum_window_counterexample :
    (codeRecentWindow c7Fused).length = 1 ∧
      (specRecentWindow c7Fused).length = 2 ∧
      momentumMessages c7Fused = [momentumMsg "Y"] ∧
      (sortDesc (groupSumOpt FusedRow.industry FusedRow.net_change
          (specRecentWindow c7Fused))).head? = some ("X", 100) := by
  decide

/-- C7 amended: for a non-empty fused table the momentum rule considers
exactly the rows whose year is at least (max year − 1) — a window that can
span a single present year; it emits a message iff that window contains at
least one industry, and the named industry has maximal summed net change over
that window. -/
theorem momentum_spec (fused_df : List FusedRow) (hne : fused_df ≠ []) :
    ∃ my, (fused_df.map FusedRow.year).max? = some my ∧
      (∀ row : FusedRow, row ∈ codeRecentWindow fused_df ↔
        row ∈ fused_df ∧ my - 1 ≤ row.year) ∧
      (momentumMessages fused_df = [] ↔
        groupSumOpt FusedRow.industry FusedRow.net_change (codeRecentWindow fused_df) = []) ∧
      ∀ top : String × Int,
        (sortDesc (groupSumOpt FusedRow.industry FusedRow.net_change
            (codeRecentWindow fused_df))).head? = some top →
          momentumMessages fused_df = [momentumMsg top.1] ∧
          ∀ p ∈ groupSumOpt FusedRow.industry FusedRow.net_change (codeRecentWindow fused_df),
            p.2 ≤ top.2 := by
  obtain ⟨my, hmy⟩ : ∃ my, (fused_df.map FusedRow.year).max? = some my := by
    cases h : (fused_df.map FusedRow.year).max? with
    | none =>
      have : fused_df.map FusedRow.year = [] := by
        cases hf : fused_df.map FusedRow.year with
        | nil => rfl
        | cons a t => rw [hf] at h; simp [List.max?] at h
      exact absurd (List.map_eq_nil_iff.1 this) hne
    | some m => exact ⟨m, rfl⟩
  refine ⟨my, hmy, ?_, ?_, ?_⟩
  · intro row
    unfold codeRecentWindow
    rw [hmy]
    simp [List.mem_filter]
  · unfold momentumMessages
    cases hh : (sortDesc (groupSumOpt FusedRow.industry FusedRow.net_change
        (codeRecentWindow fused_df))).head? with
    | none =>
      rw [List.head?_eq_none_iff] at hh
      rw [hh]
      simp [sortDesc_eq_nil_iff.1 hh]
    | some top =>
      simp only [hh]
      constructor
      · intro hcontra
        cases hcontra
      · intro hnil
        rw [sortDesc_eq_nil_iff.2 hnil] at hh
        cases hh
  · intro top htop
    refine ⟨by simp only [momentumMessages, htop], fun p hp => sortDesc_head_ge htop p hp⟩

/-- Witness for the amended C7 at a concrete two-industry fused table: the
momentum message names industry Y, whose windowed net change (10) dominates
industry X's (−60). -/
theorem momentum_spec_witness :
    momentumMessages (fuse_employment_data wLayoffs wHires) = [momentumMsg "Y"] ∧
      ((("X", (-60 : Int)).2) ≤ (("Y", (10 : Int)).2)) := by
  obtain ⟨my, hmy, hwin, hiff, htop⟩ :=
    momentum_spec (fuse_employment_data wLayoffs wHires) (by decide)
  have ht := htop ("Y", 10) (by decide)
  exact ⟨ht.1, ht.2 ("X", -60) (by decide)⟩
